import Mathlib

/-!
Verification of the thinking-support tool server: a shallow embedding of the
per-tool state machines (sequential thought log, stepwise plans, dialectical
processes, SCAMPER sessions, 5-Why analyses) translated from the Python
sources in src/thinking_support/tools, together with theorems settling the
frozen specification claims.

Modelling conventions: datetime.now() values are abstract Nat clock ticks
supplied as parameters; uuid strings are supplied as parameters; formatted
result strings are abstracted to structured results that keep exactly the
data the claims mention (in particular an error flag for results whose text
is an error message). Python dict/list semantics (truthiness, isinstance
with bool as a subtype of int, negative list indices, IndexError) are
modelled explicitly where the source relies on them.
-/

namespace ThinkingSupport

/-- Model of a Python value as it can appear in an arguments dict; an absent
key is identified with the value None, matching dict.get semantics. -/
inductive PyVal where
  | none
  | bool (b : Bool)
  | int (n : Int)
  | str (s : String)
  deriving DecidableEq

/-- Python truthiness of a value. -/
def PyVal.truthy : PyVal → Bool
  | .none => false
  | .bool b => b
  | .int n => n != 0
  | .str s => s != ""

/-- Python isinstance(v, str). -/
def PyVal.isinstanceStr : PyVal → Bool
  | .str _ => true
  | _ => false

/-- Python isinstance(v, int); bool is a subclass of int in Python. -/
def PyVal.isinstanceInt : PyVal → Bool
  | .int _ => true
  | .bool _ => true
  | _ => false

/-- Python isinstance(v, bool). -/
def PyVal.isinstanceBool : PyVal → Bool
  | .bool _ => true
  | _ => false

/-- Numeric value used when Python compares ints and bools. -/
def PyVal.toInt : PyVal → Int
  | .int n => n
  | .bool b => if b then 1 else 0
  | _ => 0

/-- String payload of a value known to be a str. -/
def PyVal.toStr : PyVal → String
  | .str s => s
  | _ => ""

namespace Sequential

/-- The argument dict of process_thought, with the keys the code reads. -/
structure InputData where
  thought : PyVal
  thought_number : PyVal
  total_thoughts : PyVal
  next_thought_needed : PyVal
  is_revision : PyVal := .none
  revises_thought : PyVal := .none
  branch_from_thought : PyVal := .none
  branch_id : PyVal := .none
  needs_more_thoughts : PyVal := .none
  deriving DecidableEq

/-- ThoughtData from sequential.py; the two count fields keep their Python
value (an int or a bool) since the code stores them unconverted. -/
structure ThoughtData where
  thought : String
  thought_number : PyVal
  total_thoughts : PyVal
  next_thought_needed : Bool
  is_revision : PyVal
  revises_thought : PyVal
  branch_from_thought : PyVal
  branch_id : PyVal
  needs_more_thoughts : PyVal
  deriving DecidableEq

/-- SequentialThinking.validate_thought_data from sequential.py. -/
def validate_thought_data (input : InputData) : Except String ThoughtData :=
  if !(input.thought.truthy && input.thought.isinstanceStr) then
    Except.error "Invalid thought: must be a string"
  else if !(input.thought_number.truthy && input.thought_number.isinstanceInt) then
    Except.error "Invalid thought_number: must be a number"
  else if !(input.total_thoughts.truthy && input.total_thoughts.isinstanceInt) then
    Except.error "Invalid total_thoughts: must be a number"
  else if !input.next_thought_needed.isinstanceBool then
    Except.error "Invalid next_thought_needed: must be a boolean"
  else
    Except.ok
      { thought := input.thought.toStr
        thought_number := input.thought_number
        total_thoughts := input.total_thoughts
        next_thought_needed := input.next_thought_needed.truthy
        is_revision := input.is_revision
        revises_thought := input.revises_thought
        branch_from_thought := input.branch_from_thought
        branch_id := input.branch_id
        needs_more_thoughts := input.needs_more_thoughts }

/-- State of a SequentialThinking instance: the main history and the branch
map (insertion-ordered, keys are the raw branch_id values). -/
structure State where
  thought_history : List ThoughtData
  branches : List (PyVal × List ThoughtData)
  deriving DecidableEq

def State.init : State := ⟨[], []⟩

/-- branches[branch_id].append(td), creating the key at the end on first use. -/
def branchAppend (bs : List (PyVal × List ThoughtData)) (key : PyVal)
    (td : ThoughtData) : List (PyVal × List ThoughtData) :=
  match bs with
  | [] => [(key, [td])]
  | (k, l) :: rest =>
    if k = key then (k, l ++ [td]) :: rest else (k, l) :: branchAppend rest key td

/-- The json payload returned by process_thought, abstracted from its string
rendering: either the success record or the error record with status failed. -/
inductive Result where
  | success (thought_number : PyVal) (total_thoughts : PyVal)
      (next_thought_needed : Bool) (branches : List PyVal)
      (thought_history_length : Nat)
  | failed (error : String)
  deriving DecidableEq

/-- The total_thoughts adjustment performed after validation: raised to
thought_number when the latter is numerically larger. -/
def adjustTotals (td : ThoughtData) : ThoughtData :=
  if td.thought_number.toInt > td.total_thoughts.toInt then
    { td with total_thoughts := td.thought_number }
  else td

/-- SequentialThinking.process_thought from sequential.py. -/
def process_thought (st : State) (input : InputData) : State × Result :=
  match validate_thought_data input with
  | Except.error e => (st, Result.failed e)
  | Except.ok td0 =>
    let td := adjustTotals td0
    let hist := st.thought_history ++ [td]
    let brs :=
      if td.branch_from_thought.truthy && td.branch_id.truthy then
        branchAppend st.branches td.branch_id td
      else st.branches
    let st2 : State := ⟨hist, brs⟩
    (st2, Result.success td.thought_number td.total_thoughts td.next_thought_needed
      (st2.branches.map Prod.fst) st2.thought_history.length)

/-- The validity predicate actually enforced by validate_thought_data. -/
def validInput (input : InputData) : Bool :=
  (input.thought.truthy && input.thought.isinstanceStr) &&
  (input.thought_number.truthy && input.thought_number.isinstanceInt) &&
  (input.total_thoughts.truthy && input.total_thoughts.isinstanceInt) &&
  input.next_thought_needed.isinstanceBool

/-- Concrete input whose number fields are present integers but with
thought_number equal to 0. -/
def zeroInput : InputData :=
  { thought := PyVal.str "a"
    thought_number := PyVal.int 0
    total_thoughts := PyVal.int 1
    next_thought_needed := PyVal.bool false }

/-- Concrete input that fails validation (empty thought). -/
def emptyThoughtInput : InputData :=
  { thought := PyVal.str ""
    thought_number := PyVal.int 1
    total_thoughts := PyVal.int 1
    next_thought_needed := PyVal.bool false }

/-- Concrete valid input with thought_number exceeding total_thoughts. -/
def growInput : InputData :=
  { thought := PyVal.str "t"
    thought_number := PyVal.int 3
    total_thoughts := PyVal.int 2
    next_thought_needed := PyVal.bool true }

end Sequential

namespace Stepwise

/-- StepwiseStep from stepwise.py. -/
structure StepwiseStep where
  number : Int
  description : String
  expected_outcome : String
  status : String
  result : Option String
  completed_at : Option Nat
  deriving DecidableEq

/-- StepwiseStep.__init__: a fresh step is pending with no result. -/
def newStep (number : Int) (description expected_outcome : String) : StepwiseStep :=
  { number := number, description := description,
    expected_outcome := expected_outcome, status := "pending",
    result := Option.none, completed_at := Option.none }

/-- StepwisePlan from stepwise.py. -/
structure StepwisePlan where
  id : String
  problem : String
  context : Option String
  steps : List StepwiseStep
  created_at : Nat
  completed_at : Option Nat
  deriving DecidableEq

/-- Python substring membership test, sub in s: some contiguous run of the
characters of s equals sub. -/
def pyInStr (sub s : String) : Bool :=
  (List.range (s.data.length + 1)).any fun i =>
    (s.data.drop i).take sub.data.length == sub.data

def create_programming_steps : List StepwiseStep :=
  [ newStep 1 "要件の明確化と分析" "具体的な機能要件と制約条件の特定",
    newStep 2 "設計とアーキテクチャの検討" "システム構造と実装方針の決定",
    newStep 3 "開発環境の準備" "必要なツールとライブラリの確認・セットアップ",
    newStep 4 "核となる機能の実装" "最も重要な機能の実装完了",
    newStep 5 "テストとデバッグ" "動作確認と問題の修正",
    newStep 6 "完成度の向上と最適化" "性能改善とコードの整理" ]

def create_learning_steps : List StepwiseStep :=
  [ newStep 1 "学習目標の設定" "明確で測定可能な学習目標の定義",
    newStep 2 "現在の知識レベルの把握" "既存知識と不足部分の特定",
    newStep 3 "学習計画の作成" "効率的な学習順序とスケジュールの策定",
    newStep 4 "基礎知識の習得" "必要な基礎概念の理解",
    newStep 5 "実践的な練習" "知識を実際に適用する練習",
    newStep 6 "理解度の確認と定着" "学習内容の振り返りと定着確認" ]

def create_problem_solving_steps : List StepwiseStep :=
  [ newStep 1 "問題の明確化" "問題の本質と範囲の特定",
    newStep 2 "情報収集と現状分析" "関連情報の収集と現状の詳細把握",
    newStep 3 "原因の特定" "問題の根本原因の分析",
    newStep 4 "解決策の検討" "複数の解決策の立案と評価",
    newStep 5 "最適解の選択と実行" "最も適切な解決策の実行",
    newStep 6 "結果の評価と改善" "実行結果の評価と必要に応じた改善" ]

def create_generic_steps : List StepwiseStep :=
  [ newStep 1 "目標の設定" "達成したい目標の明確化",
    newStep 2 "現状の把握" "現在の状況と課題の整理",
    newStep 3 "計画の立案" "目標達成のための具体的計画",
    newStep 4 "実行" "計画に基づいた行動の実施",
    newStep 5 "確認と調整" "進捗確認と必要に応じた調整",
    newStep 6 "完了と振り返り" "目標達成の確認と経験の整理" ]

/-- StepwiseThinking._analyze_and_create_steps keyword dispatch. -/
def analyze_and_create_steps (problem : String) : List StepwiseStep :=
  if pyInStr "プログラム" problem || pyInStr "コード" problem || pyInStr "開発" problem then
    create_programming_steps
  else if pyInStr "学習" problem || pyInStr "勉強" problem then
    create_learning_steps
  else if pyInStr "問題解決" problem || pyInStr "課題" problem then
    create_problem_solving_steps
  else
    create_generic_steps

/-- StepwiseThinking.create_plan: the stored plan (result text omitted). -/
def create_plan (problem : String) (context : Option String) (id : String)
    (now : Nat) : StepwisePlan :=
  { id := id, problem := problem, context := context,
    steps := analyze_and_create_steps problem, created_at := now,
    completed_at := Option.none }

/-- In-place mutation of the first step whose number matches: result set,
status completed, completed_at stamped. -/
def updateStep (steps : List StepwiseStep) (n : Int) (result : String)
    (now : Nat) : List StepwiseStep :=
  match steps with
  | [] => []
  | s :: rest =>
    if s.number = n then
      { s with result := some result, status := "completed",
               completed_at := some now } :: rest
    else s :: updateStep rest n result now

def countCompleted (steps : List StepwiseStep) : Nat :=
  (steps.filter (fun s => s.status = "completed")).length

/-- StepwiseThinking.execute_step restricted to an already-looked-up plan;
Option.none models the step-not-found error return (which mutates nothing).
The completion timestamp is stamped unconditionally whenever the completed
count equals the total after the mutation, mirroring lines 92 to 94. -/
def execute_step (plan : StepwisePlan) (step_number : Int) (result : String)
    (now : Nat) : Option StepwisePlan :=
  if (plan.steps.find? (fun s => s.number == step_number)).isSome then
    let steps2 := updateStep plan.steps step_number result now
    some { plan with
           steps := steps2,
           completed_at :=
             if countCompleted steps2 = steps2.length then some now
             else plan.completed_at }
  else Option.none

/-- Step through execute_step, keeping the plan unchanged on the error path. -/
def execStep (p : StepwisePlan) (n : Int) (r : String) (t : Nat) : StepwisePlan :=
  (execute_step p n r t).getD p

/-- A concrete plan (generic category: 6 steps). -/
def plan0 : StepwisePlan := create_plan "" Option.none "p1" 0

/-- plan0 after executing all six steps at times 1..6. -/
def plan6 : StepwisePlan :=
  execStep (execStep (execStep (execStep (execStep (execStep plan0 1 "r" 1)
    2 "r" 2) 3 "r" 3) 4 "r" 4) 5 "r" 5) 6 "r" 6

/-- plan6 after re-executing step 3 at time 9. -/
def plan7 : StepwisePlan := execStep plan6 3 "r2" 9

/-- The plan produced by the C1 witness call. -/
def planW : StepwisePlan := (execute_step plan0 1 "x" 5).getD plan0

end Stepwise

namespace Dialectical

/-- DialecticalPosition from dialectical.py. -/
structure DialecticalPosition where
  type : String
  content : String
  evidence : List String
  created_at : Nat
  deriving DecidableEq

/-- DialecticalPosition.__init__ (evidence defaults to the empty list). -/
def mkPosition (type content : String) (evidence : Option (List String))
    (now : Nat) : DialecticalPosition :=
  { type := type, content := content, evidence := evidence.getD [],
    created_at := now }

/-- DialecticalProcess from dialectical.py. -/
structure DialecticalProcess where
  id : String
  topic : String
  context : Option String
  thesis : Option DialecticalPosition
  antithesis : Option DialecticalPosition
  synthesis : Option DialecticalPosition
  created_at : Nat
  completed_at : Option Nat
  deriving DecidableEq

/-- DialecticalProcess.__init__. -/
def start_dialectical_process (id topic : String) (context : Option String)
    (now : Nat) : DialecticalProcess :=
  { id := id, topic := topic, context := context, thesis := Option.none,
    antithesis := Option.none, synthesis := Option.none, created_at := now,
    completed_at := Option.none }

/-- DialecticalThinking.set_thesis on a looked-up process; the Bool is true
when the result text is an error message. The thesis is assigned with no
guard on its prior value. -/
def set_thesis (p : DialecticalProcess) (thesis : String)
    (evidence : Option (List String)) (now : Nat) : Bool × DialecticalProcess :=
  (false, { p with thesis := some (mkPosition "thesis" thesis evidence now) })

/-- DialecticalThinking.set_antithesis on a looked-up process: errors while
the thesis is unset, otherwise assigns the antithesis unconditionally. -/
def set_antithesis (p : DialecticalProcess) (antithesis : String)
    (evidence : Option (List String)) (now : Nat) : Bool × DialecticalProcess :=
  if p.thesis.isNone then (true, p)
  else (false, { p with antithesis := some (mkPosition "antithesis" antithesis evidence now) })

/-- DialecticalThinking.create_synthesis on a looked-up process: errors while
thesis or antithesis is unset (before any mutation), otherwise assigns the
synthesis (no evidence argument) and stamps completed_at. -/
def create_synthesis (p : DialecticalProcess) (synthesis : String)
    (_reasoning : Option String) (now : Nat) : Bool × DialecticalProcess :=
  if p.thesis.isNone || p.antithesis.isNone then (true, p)
  else
    (false, { p with synthesis := some (mkPosition "synthesis" synthesis Option.none now),
                     completed_at := some now })

/-- DialecticalThinking.get_process: a pure read; returns the state it was
given together with the rendered view data (the shown completion timestamp
and the derived next-step hint). -/
def get_process (p : DialecticalProcess) :
    DialecticalProcess × (Option Nat × String) :=
  (p, (p.completed_at,
       if p.thesis.isNone then "dialectical_set_thesis"
       else if p.antithesis.isNone then "dialectical_set_antithesis"
       else if p.synthesis.isNone then "dialectical_create_synthesis"
       else "完了"))

/-- DialecticalThinking.list_processes: a pure read over all processes,
rendering each id with its completion status. -/
def list_processes (ps : List DialecticalProcess) :
    List DialecticalProcess × List (String × Bool) :=
  (ps, ps.map (fun p => (p.id, p.completed_at.isSome)))

/-- A fresh concrete process. -/
def proc0 : DialecticalProcess := start_dialectical_process "d1" "T" Option.none 0

/-- proc0 after one set_thesis call. -/
def procA : DialecticalProcess := (set_thesis proc0 "A" Option.none 1).2

/-- procA after a second set_thesis call with different content. -/
def procB : DialecticalProcess := (set_thesis procA "B" Option.none 2).2

end Dialectical

namespace Scamper

/-- SCAMPERTechnique enum from scamper.py, in declaration order. -/
inductive SCAMPERTechnique where
  | substitute
  | combine
  | adapt
  | modify
  | put_to_other_use
  | eliminate
  | reverse
  deriving DecidableEq

/-- The string value of each enum member. -/
def SCAMPERTechnique.value : SCAMPERTechnique → String
  | .substitute => "Substitute"
  | .combine => "Combine"
  | .adapt => "Adapt"
  | .modify => "Modify"
  | .put_to_other_use => "Put to other use"
  | .eliminate => "Eliminate"
  | .reverse => "Reverse"

/-- Enum members in iteration order, as used by the invalid-technique error. -/
def allTechniques : List SCAMPERTechnique :=
  [ .substitute, .combine, .adapt, .modify, .put_to_other_use, .eliminate, .reverse ]

/-- SCAMPERIdea from scamper.py; both scores default to 0 at creation. -/
structure SCAMPERIdea where
  id : String
  technique : SCAMPERTechnique
  idea : String
  explanation : String
  feasibility_score : Int
  impact_score : Int
  created_at : Nat
  deriving DecidableEq

/-- SCAMPERSession from scamper.py. -/
structure SCAMPERSession where
  id : String
  topic : String
  current_situation : String
  ideas : List SCAMPERIdea
  active_technique : Option SCAMPERTechnique
  session_notes : List String
  created_at : Nat
  updated_at : Nat
  deriving DecidableEq

/-- The fixed alias map of SCAMPER._get_technique_enum: lowercase English
keys and Japanese keys for all 7 techniques. -/
def technique_map : List (String × SCAMPERTechnique) :=
  [ ("substitute", .substitute), ("代替", .substitute),
    ("combine", .combine), ("結合", .combine),
    ("adapt", .adapt), ("応用", .adapt),
    ("modify", .modify), ("変更", .modify),
    ("put_to_other_use", .put_to_other_use), ("転用", .put_to_other_use),
    ("eliminate", .eliminate), ("除去", .eliminate),
    ("reverse", .reverse), ("逆転", .reverse) ]

/-- ASCII lowercasing of one character, as Python str.lower acts on the
ASCII range; characters outside A-Z (including all Japanese characters in
the alias map) are unchanged. -/
def lowerChar (c : Char) : Char :=
  if 65 ≤ c.toNat ∧ c.toNat ≤ 90 then Char.ofNat (c.toNat + 32) else c

/-- Python str.lower restricted to the alphabet relevant to the alias map. -/
def pyLower (s : String) : String := String.mk (s.data.map lowerChar)

/-- SCAMPER._get_technique_enum: the input is lowercased and looked up in the
alias map; Option.none models the raised ValueError. -/
def get_technique_enum (technique : String) : Option SCAMPERTechnique :=
  List.lookup (pyLower technique) technique_map

/-- One SCAMPERIdea per input idea string, with the explanation taken from
the optional parallel list when present and long enough, else empty; ids are
supplied by the uuid oracle list. -/
def buildIdeas (tq : SCAMPERTechnique) (ideas : List String)
    (explanations : Option (List String)) (ids : List String) (now : Nat) :
    List SCAMPERIdea :=
  (List.range ideas.length).map fun i =>
    { id := ids.getD i ""
      technique := tq
      idea := ideas.getD i ""
      explanation :=
        match explanations with
        | some ex => if ex.length ≠ 0 && i < ex.length then ex.getD i "" else ""
        | Option.none => ""
      feasibility_score := 0
      impact_score := 0
      created_at := now }

/-- Result of apply_technique, abstracted from its text: the invalid branch
carries the list of valid technique names included in the error message. -/
inductive ApplyOut where
  | invalid (valid : List String)
  | applied
  deriving DecidableEq

/-- SCAMPER.apply_technique on a looked-up session: an unknown technique name
errors before any mutation; otherwise the active technique is set, the new
ideas are appended, updated_at is stamped and a session note is appended. -/
def apply_technique (s : SCAMPERSession) (technique : String)
    (ideas : List String) (explanations : Option (List String))
    (ids : List String) (now : Nat) : ApplyOut × SCAMPERSession :=
  match get_technique_enum technique with
  | Option.none => (ApplyOut.invalid (allTechniques.map SCAMPERTechnique.value), s)
  | some tq =>
    (ApplyOut.applied,
     { s with
       active_technique := some tq,
       ideas := s.ideas ++ buildIdeas tq ideas explanations ids now,
       updated_at := now,
       session_notes := s.session_notes ++
         [tq.value ++ "技法を適用: " ++ toString ideas.length ++ "個のアイデアを生成"] })

/-- One evaluation dict from the idea_evaluations argument. -/
structure IdeaEvaluation where
  idea : Option String
  feasibility : Option Int
  impact : Option Int
  deriving DecidableEq

def IdeaEvaluation.ideaText (ev : IdeaEvaluation) : String := ev.idea.getD ""

/-- The inner loop of evaluate_ideas for one evaluation: the first stored
idea whose text equals the evaluation text gets both scores assigned, then
the loop breaks; later ideas are untouched. -/
def applyEval (ideas : List SCAMPERIdea) (txt : String) (f imp : Int) :
    List SCAMPERIdea :=
  match ideas with
  | [] => []
  | i :: rest =>
    if i.idea = txt then
      { i with feasibility_score := f, impact_score := imp } :: rest
    else i :: applyEval rest txt f imp

/-- The idea-list transformation performed by evaluate_ideas: the
evaluations applied left to right, each through applyEval with the dict.get
defaults of the source. -/
def evalFold (l : List SCAMPERIdea) (evals : List IdeaEvaluation) :
    List SCAMPERIdea :=
  evals.foldl
    (fun acc ev => applyEval acc ev.ideaText (ev.feasibility.getD 0) (ev.impact.getD 0)) l

/-- SCAMPER.evaluate_ideas on a looked-up session: each evaluation is applied
in order with dict.get defaults, then updated_at is stamped and a session
note appended. -/
def evaluate_ideas (s : SCAMPERSession) (evals : List IdeaEvaluation)
    (now : Nat) : SCAMPERSession :=
  { s with
    ideas := evalFold s.ideas evals,
    updated_at := now,
    session_notes := s.session_notes ++
      ["アイデア評価を完了: " ++ toString evals.length ++ "個のアイデアを評価"] }

/-- A concrete session used by the witnesses. -/
def sess0 : SCAMPERSession :=
  { id := "s1", topic := "T", current_situation := "S", ideas := [],
    active_technique := Option.none, session_notes := [], created_at := 0,
    updated_at := 0 }

/-- Two stored ideas sharing the same text. -/
def ideaA : SCAMPERIdea :=
  { id := "i1", technique := .substitute, idea := "X", explanation := "",
    feasibility_score := 0, impact_score := 0, created_at := 0 }

def ideaB : SCAMPERIdea :=
  { id := "i2", technique := .combine, idea := "X", explanation := "",
    feasibility_score := 0, impact_score := 0, created_at := 0 }

def sessDup : SCAMPERSession := { sess0 with ideas := [ideaA, ideaB] }

def evalX : IdeaEvaluation :=
  { idea := some "X", feasibility := some 5, impact := some 7 }

end Scamper

namespace WhyAnalysis

/-- One entry of the whys list of a 5-Why analysis. -/
structure WhyEntry where
  level : Int
  question : String
  answer : Option String
  timestamp : Nat
  deriving DecidableEq

/-- A 5-Why analysis record from why_analysis.py. -/
structure Analysis where
  id : String
  problem : String
  context : Option String
  whys : List WhyEntry
  created_at : Nat
  status : String
  deriving DecidableEq

/-- WhyAnalysis.start_analysis: status active, one seeded level-0 entry with
a null answer. -/
def start_analysis (id problem : String) (context : Option String) (now : Nat) :
    Analysis :=
  { id := id, problem := problem, context := context,
    whys := [ { level := 0,
                question := "なぜ「" ++ problem ++ "」が起こったのか？",
                answer := Option.none, timestamp := now } ],
    created_at := now, status := "active" }

/-- Python list index resolution for a list of length n: nonnegative indices
below n are themselves, indices in [-n, 0) count from the end, anything else
raises IndexError (Option.none here). -/
def pyIndex (n : Nat) (i : Int) : Option Nat :=
  if 0 ≤ i then
    if i < (n : Int) then some i.toNat else Option.none
  else
    if -(n : Int) ≤ i then some ((n : Int) + i).toNat else Option.none

/-- Outcome of add_answer: either a returned result text (isError marks the
error-message results) with the analysis state after the call, or an uncaught
IndexError raised by the subscript before any mutation. -/
inductive AAOut where
  | ret (isError : Bool) (a : Analysis)
  | raised
  deriving DecidableEq

/-- WhyAnalysis.add_answer on a looked-up analysis. Levels at or above the
sequence length return an error; the subscript then resolves the level with
Python negative-index semantics (raising on levels below minus the length);
an already answered entry returns an error; otherwise the answer and
timestamp are recorded and, when level is less than 4, the next why is
appended, else the status becomes completed. -/
def add_answer (a : Analysis) (level : Int) (answer : String) (now : Nat) :
    AAOut :=
  if (a.whys.length : Int) ≤ level then AAOut.ret true a
  else
    match pyIndex a.whys.length level with
    | Option.none => AAOut.raised
    | some idx =>
      match a.whys[idx]? with
      | Option.none => AAOut.raised
      | some entry =>
        if entry.answer.isSome then AAOut.ret true a
        else
          let whys2 := a.whys.set idx { entry with answer := some answer, timestamp := now }
          if level < 4 then
            AAOut.ret false
              { a with whys := whys2 ++
                  [ { level := level + 1,
                      question := "なぜ「" ++ answer ++ "」なのか？",
                      answer := Option.none, timestamp := now } ] }
          else
            AAOut.ret false { a with whys := whys2, status := "completed" }

/-- The analysis state after one add_answer call (a raise mutates nothing). -/
def aaStep (a : Analysis) (level : Int) (ans : String) (now : Nat) : Analysis :=
  match add_answer a level ans now with
  | AAOut.ret _ a2 => a2
  | AAOut.raised => a

/-- One recorded call to add_answer. -/
structure AACall where
  level : Int
  answer : String
  now : Nat

/-- The analysis reached from a fresh start_analysis by a call sequence. -/
def runCalls (a : Analysis) (calls : List AACall) : Analysis :=
  calls.foldl (fun acc c => aaStep acc c.level c.answer c.now) a

/-- Whether the entry at index i exists and is answered. -/
def answeredAt (a : Analysis) (i : Nat) : Bool :=
  match a.whys[i]? with
  | some e => e.answer.isSome
  | Option.none => false

/-- The reachability invariant of an analysis driven with nonnegative
levels: at most 5 entries, every entry before the last is answered, and a
completed analysis is fully answered. -/
def Inv (a : Analysis) : Prop :=
  a.whys.length ≤ 5 ∧
  (∀ i : Nat, i + 1 < a.whys.length → answeredAt a i = true) ∧
  (a.status = "completed" → ∀ i : Nat, i < a.whys.length → answeredAt a i = true)

/-- A fresh concrete analysis. -/
def why0 : Analysis := start_analysis "a1" "P" Option.none 0

/-- why0 after five add_answer calls all at level -1. -/
def whyNeg5 : Analysis :=
  aaStep (aaStep (aaStep (aaStep (aaStep why0 (-1) "r1" 1) (-1) "r2" 2)
    (-1) "r3" 3) (-1) "r4" 4) (-1) "r5" 5

/-- why0 after a single add_answer call at level -1. -/
def whyNeg1 : Analysis := aaStep why0 (-1) "r1" 1

end WhyAnalysis

namespace Sequential

/-- A successful validation is exactly a pass of all four truthiness and
isinstance checks. -/
theorem validate_ok_iff (input : InputData) :
    (∃ td, validate_thought_data input = Except.ok td) ↔ validInput input = true := by
  unfold validate_thought_data validInput
  constructor
  · rintro ⟨td, h⟩
    repeat' split at h
    all_goals simp_all
  · intro h
    simp only [Bool.and_eq_true] at h
    obtain ⟨⟨⟨h1, h2⟩, h3⟩, h4⟩ := h
    refine ⟨{ thought := input.thought.toStr, thought_number := input.thought_number,
              total_thoughts := input.total_thoughts,
              next_thought_needed := input.next_thought_needed.truthy,
              is_revision := input.is_revision,
              revises_thought := input.revises_thought,
              branch_from_thought := input.branch_from_thought,
              branch_id := input.branch_id,
              needs_more_thoughts := input.needs_more_thoughts }, ?_⟩
    simp [h1.1, h1.2, h2.1, h2.2, h3.1, h3.2, h4]

/-- The validated record extracted when validation succeeds. -/
theorem validate_ok_elim (input : InputData) (td : ThoughtData)
    (h : validate_thought_data input = Except.ok td) : validInput input = true :=
  (validate_ok_iff input).mp ⟨td, h⟩

/-- C9: an input whose thought_number or total_thoughts field is the present
integer 0 fails validation through truthiness exactly as a missing field
would: process_thought returns a failed result and appends nothing. -/
theorem process_thought_rejects_zero (st : State) (input : InputData)
    (h : input.thought_number = PyVal.int 0 ∨ input.total_thoughts = PyVal.int 0) :
    (process_thought st input).1 = st ∧
    ∃ e, (process_thought st input).2 = Result.failed e := by
  have hv : validInput input = false := by
    rcases h with h | h <;> simp [validInput, h, PyVal.truthy]
  cases hres : validate_thought_data input with
  | error e => simp [process_thought, hres]
  | ok td =>
    exact absurd (validate_ok_elim input td hres) (by simp [hv])

/-- C9 witness: the concrete zero input is rejected without mutation. -/
theorem process_thought_rejects_zero_witness :
    (process_thought State.init zeroInput).1 = State.init ∧
    ∃ e, (process_thought State.init zeroInput).2 = Result.failed e :=
  process_thought_rejects_zero State.init zeroInput (Or.inl rfl)

/-- C6 counterexample: zeroInput satisfies every condition of the claim (its
thought is a non-empty string, both count fields are present integers and
next_thought_needed is a boolean), so the claim requires the entry to be
appended; the code instead returns a validation error and appends nothing,
because the present integer 0 is falsy. -/
theorem process_thought_claimC6_false :
    (zeroInput.thought.isinstanceStr = true ∧ zeroInput.thought.toStr ≠ "" ∧
     zeroInput.thought_number ≠ PyVal.none ∧
     zeroInput.thought_number.isinstanceInt = true ∧
     zeroInput.total_thoughts ≠ PyVal.none ∧
     zeroInput.total_thoughts.isinstanceInt = true ∧
     zeroInput.next_thought_needed.isinstanceBool = true) ∧
    (process_thought State.init zeroInput).1.thought_history = [] ∧
    (process_thought State.init zeroInput).2 =
      Result.failed "Invalid thought_number: must be a number" := by
  refine ⟨by decide, ?_, ?_⟩ <;> rfl

/-- C6 amended: process_thought appends exactly when the input passes the
validation actually coded (truthy string thought, truthy int-or-bool count
fields, boolean next_thought_needed); any violation yields a failed result
and leaves the history and every branch sub-sequence unchanged. -/
theorem process_thought_validation (st : State) (input : InputData) :
    (validInput input = false →
      (process_thought st input).1 = st ∧
      ∃ e, (process_thought st input).2 = Result.failed e) ∧
    (validInput input = true →
      ∃ td, validate_thought_data input = Except.ok td ∧
        (process_thought st input).1.thought_history =
          st.thought_history ++ [adjustTotals td]) := by
  constructor
  · intro hv
    cases hres : validate_thought_data input with
    | error e => simp [process_thought, hres]
    | ok td => exact absurd (validate_ok_elim input td hres) (by simp [hv])
  · intro hv
    obtain ⟨td, hres⟩ := (validate_ok_iff input).mpr hv
    exact ⟨td, hres, by simp [process_thought, hres]⟩

/-- C6 witness: the empty-thought input is rejected with no mutation. -/
theorem process_thought_validation_witness :
    (process_thought State.init emptyThoughtInput).1 = State.init ∧
    ∃ e, (process_thought State.init emptyThoughtInput).2 = Result.failed e :=
  (process_thought_validation State.init emptyThoughtInput).1 (by decide)

/-- C7: on a valid append the stored entry is the validated record with its
total_thoughts raised to the numeric maximum of the two count fields (never
lowered), its thought_number unchanged, and the returned result reports the
same adjusted values. -/
theorem process_thought_raises_totals (st : State) (input : InputData)
    (td : ThoughtData) (h : validate_thought_data input = Except.ok td) :
    (process_thought st input).1.thought_history.getLast? = some (adjustTotals td) ∧
    (adjustTotals td).total_thoughts.toInt =
      max td.total_thoughts.toInt td.thought_number.toInt ∧
    (adjustTotals td).thought_number = td.thought_number ∧
    (process_thought st input).2 =
      Result.success td.thought_number (adjustTotals td).total_thoughts
        td.next_thought_needed
        ((process_thought st input).1.branches.map Prod.fst)
        ((process_thought st input).1.thought_history.length) := by
  refine ⟨?_, ?_, ?_, ?_⟩
  · simp [process_thought, h]
  · by_cases hgt : td.thought_number.toInt > td.total_thoughts.toInt <;>
      simp [adjustTotals, hgt] <;> omega
  · by_cases hgt : td.thought_number.toInt > td.total_thoughts.toInt <;>
      simp [adjustTotals, hgt]
  · by_cases hgt : td.thought_number.toInt > td.total_thoughts.toInt <;>
      simp [process_thought, h, adjustTotals, hgt]

/-- The record validated from growInput. -/
def tdGrow : ThoughtData :=
  { thought := "t", thought_number := PyVal.int 3, total_thoughts := PyVal.int 2,
    next_thought_needed := true, is_revision := PyVal.none,
    revises_thought := PyVal.none, branch_from_thought := PyVal.none,
    branch_id := PyVal.none, needs_more_thoughts := PyVal.none }

/-- C7 witness: appending growInput (thought_number 3, total_thoughts 2)
stores the adjusted record. -/
theorem process_thought_raises_totals_witness :
    (process_thought State.init growInput).1.thought_history.getLast? =
      some (adjustTotals tdGrow) :=
  (process_thought_raises_totals State.init growInput tdGrow (by rfl)).1

end Sequential

namespace Stepwise

/-- C1 counterexample: after completing all six steps of a freshly created
plan at time 6 the completion timestamp is some 6; re-executing the already
completed step 3 at time 9 overwrites it to some 9, so the timestamp is not
set exactly once and changes on a later execute_step call. -/
theorem execute_step_claimC1_false :
    plan6.completed_at = some 6 ∧ plan7.completed_at = some 9 ∧
    plan6.completed_at ≠ plan7.completed_at := by
  refine ⟨by rfl, by rfl, by decide⟩

/-- C1 amended: execute_step stamps the completion timestamp with the current
time whenever, after the mutation, all steps are completed, unconditionally:
it does not test whether the timestamp is already set, so re-execution inside
a fully completed plan refreshes it; when some step is still uncompleted the
prior timestamp is kept. -/
theorem execute_step_completion (plan : StepwisePlan) (n : Int) (r : String)
    (now : Nat) (p2 : StepwisePlan) (h : execute_step plan n r now = some p2) :
    (p2.completed_at =
      if countCompleted p2.steps = p2.steps.length then some now
      else plan.completed_at) ∧
    p2.steps = updateStep plan.steps n r now := by
  unfold execute_step at h
  split at h
  · injection h with h
    subst h
    constructor <;> rfl
  · exact Option.noConfusion h

/-- C1 witness: executing step 1 of the fresh six-step plan at time 5 leaves
the other five steps pending, so the prior (null) timestamp is kept. -/
theorem execute_step_completion_witness :
    (planW.completed_at =
      if countCompleted planW.steps = planW.steps.length then some 5
      else plan0.completed_at) ∧
    planW.steps = updateStep plan0.steps 1 "x" 5 :=
  execute_step_completion plan0 1 "x" 5 planW (by rfl)

end Stepwise

namespace Dialectical

/-- C3: create_synthesis while thesis or antithesis is unset returns an error
result and leaves the process entirely unchanged (in particular completed_at
is untouched); after setting thesis, antithesis and synthesis in order the
completion timestamp is the synthesis time, and the get_process and
list_processes reads return the state they were given unchanged. -/
theorem create_synthesis_order (p : DialecticalProcess) (th an syn : String)
    (ev1 ev2 : Option (List String)) (reasoning : Option String)
    (t1 t2 t3 : Nat) :
    (p.thesis = Option.none ∨ p.antithesis = Option.none →
      create_synthesis p syn reasoning t3 = (true, p)) ∧
    ((create_synthesis ((set_antithesis ((set_thesis p th ev1 t1).2) an ev2 t2).2)
        syn reasoning t3).2.completed_at = some t3) ∧
    (∀ q : DialecticalProcess, (get_process q).1 = q) ∧
    (∀ qs : List DialecticalProcess, (list_processes qs).1 = qs) := by
  refine ⟨?_, ?_, fun q => rfl, fun qs => rfl⟩
  · intro h
    rcases h with h | h <;> simp [create_synthesis, h]
  · simp [set_thesis, set_antithesis, create_synthesis]

/-- C3 witness: on the fresh process the synthesis call errors without
mutation. -/
theorem create_synthesis_order_witness :
    create_synthesis proc0 "S" Option.none 3 = (true, proc0) :=
  (create_synthesis_order proc0 "A" "B" "S" Option.none Option.none
    Option.none 1 2 3).1 (Or.inl rfl)

/-- C4 counterexample: calling set_thesis twice on the same process replaces
the previously set thesis position, so a set position is not immune to every
subsequent set_thesis call. -/
theorem set_thesis_claimC4_false :
    procA.thesis = some (mkPosition "thesis" "A" Option.none 1) ∧
    procB.thesis = some (mkPosition "thesis" "B" Option.none 2) ∧
    procA.thesis ≠ procB.thesis := by
  refine ⟨by rfl, by rfl, by decide⟩

/-- C4 amended: each position, once set, is never modified by the other two
operations (set_antithesis and create_synthesis preserve thesis;
set_thesis and create_synthesis preserve antithesis; set_thesis and
set_antithesis preserve synthesis), but re-calling the same setter
overwrites its own field unconditionally. -/
theorem positions_cross_preserved (p : DialecticalProcess) (c : String)
    (ev : Option (List String)) (reasoning : Option String) (now : Nat) :
    ((set_antithesis p c ev now).2.thesis = p.thesis ∧
     (set_antithesis p c ev now).2.synthesis = p.synthesis) ∧
    ((set_thesis p c ev now).2.antithesis = p.antithesis ∧
     (set_thesis p c ev now).2.synthesis = p.synthesis) ∧
    ((create_synthesis p c reasoning now).2.thesis = p.thesis ∧
     (create_synthesis p c reasoning now).2.antithesis = p.antithesis) ∧
    (set_thesis p c ev now).2.thesis = some (mkPosition "thesis" c ev now) := by
  refine ⟨⟨?_, ?_⟩, ⟨rfl, rfl⟩, ⟨?_, ?_⟩, rfl⟩
  · unfold set_antithesis; split <;> rfl
  · unfold set_antithesis; split <;> rfl
  · unfold create_synthesis; split <;> rfl
  · unfold create_synthesis; split <;> rfl

end Dialectical

namespace Scamper

theorem applyEval_length (l : List SCAMPERIdea) (txt : String) (f imp : Int) :
    (applyEval l txt f imp).length = l.length := by
  induction l with
  | nil => rfl
  | cons a rest ih =>
    unfold applyEval
    by_cases ha : a.idea = txt <;> simp [ha, ih]

/-- Each position of applyEval is either untouched or, when its text matches,
rewritten to the same record with both scores replaced. -/
theorem applyEval_getElem (l : List SCAMPERIdea) (txt : String) (f imp : Int)
    (i : Nat) :
    (applyEval l txt f imp)[i]? = l[i]? ∨
    ∃ rec, l[i]? = some rec ∧ rec.idea = txt ∧
      (applyEval l txt f imp)[i]? =
        some { rec with feasibility_score := f, impact_score := imp } := by
  induction l generalizing i with
  | nil => left; rfl
  | cons a rest ih =>
    unfold applyEval
    by_cases ha : a.idea = txt
    · simp only [if_pos ha]
      cases i with
      | zero => right; exact ⟨a, by simp, ha, by simp⟩
      | succ j => left; simp
    · simp only [if_neg ha]
      cases i with
      | zero => left; simp
      | succ j =>
        rcases ih j with h | ⟨rec, h1, h2, h3⟩
        · left; simpa using h
        · right; exact ⟨rec, by simpa using h1, h2, by simpa using h3⟩

/-- A stored idea whose text differs from the evaluation text is untouched. -/
theorem applyEval_untouched (l : List SCAMPERIdea) (txt : String) (f imp : Int)
    (i : Nat) (rec : SCAMPERIdea) (h : l[i]? = some rec)
    (hne : rec.idea ≠ txt) :
    (applyEval l txt f imp)[i]? = some rec := by
  rcases applyEval_getElem l txt f imp i with h2 | ⟨rec2, h1, h2, h3⟩
  · rw [h2, h]
  · rw [h] at h1
    injection h1 with h1
    exact absurd (h1 ▸ h2) hne

/-- First match wins: a stored idea preceded by another idea with the same
text is never the one applyEval rewrites. -/
theorem applyEval_dup (l : List SCAMPERIdea) (txt : String) (f imp : Int)
    (i j : Nat) (rec recj : SCAMPERIdea) (hij : j < i)
    (hi : l[i]? = some rec) (hj : l[j]? = some recj)
    (heq : recj.idea = rec.idea) :
    (applyEval l txt f imp)[i]? = some rec := by
  induction l generalizing i j with
  | nil => simp at hi
  | cons a rest ih =>
    unfold applyEval
    by_cases ha : a.idea = txt
    · simp only [if_pos ha]
      cases i with
      | zero => omega
      | succ i2 => simpa using hi
    · simp only [if_neg ha]
      cases i with
      | zero => omega
      | succ i2 =>
        simp only [List.getElem?_cons_succ]
        cases j with
        | zero =>
          have haj : a = recj := by
            have := hj
            simp only [List.getElem?_cons_zero, Option.some.injEq] at this
            exact this
          have hrec : rec.idea ≠ txt := by
            rw [← heq, ← haj]
            exact ha
          exact applyEval_untouched rest txt f imp i2 rec (by simpa using hi) hrec
        | succ j2 =>
          exact ih i2 j2 (by omega) (by simpa using hi) (by simpa using hj)

theorem evalFold_length (evals : List IdeaEvaluation) (l : List SCAMPERIdea) :
    (evalFold l evals).length = l.length := by
  induction evals generalizing l with
  | nil => rfl
  | cons ev rest ih =>
    unfold evalFold
    simp only [List.foldl_cons]
    exact (ih _).trans (applyEval_length ..)

/-- Each position of the full evaluation fold is either untouched or
rewritten to the same record with new scores, and then only when its text
occurs among the evaluation texts. -/
theorem evalFold_getElem (evals : List IdeaEvaluation) (l : List SCAMPERIdea)
    (i : Nat) :
    (evalFold l evals)[i]? = l[i]? ∨
    ∃ rec f imp, l[i]? = some rec ∧
      rec.idea ∈ evals.map IdeaEvaluation.ideaText ∧
      (evalFold l evals)[i]? =
        some { rec with feasibility_score := f, impact_score := imp } := by
  induction evals generalizing l with
  | nil => left; rfl
  | cons ev rest ih =>
    have hstep := applyEval_getElem l ev.ideaText (ev.feasibility.getD 0)
      (ev.impact.getD 0) i
    have hrest := ih (applyEval l ev.ideaText (ev.feasibility.getD 0)
      (ev.impact.getD 0))
    have hfold : evalFold l (ev :: rest) =
        evalFold (applyEval l ev.ideaText (ev.feasibility.getD 0)
          (ev.impact.getD 0)) rest := rfl
    rw [hfold]
    rcases hrest with h | ⟨rec2, f2, imp2, h1, h2, h3⟩
    · rw [h]
      rcases hstep with h4 | ⟨rec, h4, h5, h6⟩
      · left; exact h4
      · right; exact ⟨rec, _, _, h4, by simp [h5], h6⟩
    · rcases hstep with h4 | ⟨rec, h4, h5, h6⟩
      · rw [h4] at h1
        right
        exact ⟨rec2, f2, imp2, h1, by simp [h2], h3⟩
      · rw [h6] at h1
        injection h1 with h1
        right
        refine ⟨rec, f2, imp2, h4, by simp [h5], ?_⟩
        rw [h3, ← h1]

/-- A stored idea whose text matches no evaluation keeps its whole record. -/
theorem evalFold_untouched (evals : List IdeaEvaluation) (l : List SCAMPERIdea)
    (i : Nat) (rec : SCAMPERIdea) (h : l[i]? = some rec)
    (hne : rec.idea ∉ evals.map IdeaEvaluation.ideaText) :
    (evalFold l evals)[i]? = some rec := by
  induction evals generalizing l with
  | nil => exact h
  | cons ev rest ih =>
    have hfold : evalFold l (ev :: rest) =
        evalFold (applyEval l ev.ideaText (ev.feasibility.getD 0)
          (ev.impact.getD 0)) rest := rfl
    rw [hfold]
    have hne1 : rec.idea ≠ ev.ideaText := by
      intro hx; exact hne (by simp [hx])
    have hne2 : rec.idea ∉ rest.map IdeaEvaluation.ideaText := by
      intro hx; exact hne (by simp [hx])
    exact ih _ (applyEval_untouched l ev.ideaText _ _ i rec h hne1) hne2

/-- First match wins through the whole fold: an idea preceded by a duplicate
of its own text is never updated. -/
theorem evalFold_dup (evals : List IdeaEvaluation) (i j : Nat)
    (rec : SCAMPERIdea) (hij : j < i) :
    ∀ (l : List SCAMPERIdea) (recj : SCAMPERIdea), l[i]? = some rec →
      l[j]? = some recj → recj.idea = rec.idea →
      (evalFold l evals)[i]? = some rec := by
  induction evals with
  | nil => intro l recj hi _hj _heq; exact hi
  | cons ev rest ih =>
    intro l recj hi hj heq
    have hfold : evalFold l (ev :: rest) =
        evalFold (applyEval l ev.ideaText (ev.feasibility.getD 0)
          (ev.impact.getD 0)) rest := rfl
    rw [hfold]
    have hi2 := applyEval_dup l ev.ideaText (ev.feasibility.getD 0)
      (ev.impact.getD 0) i j rec recj hij hi hj heq
    rcases applyEval_getElem l ev.ideaText (ev.feasibility.getD 0)
        (ev.impact.getD 0) j with h4 | ⟨rec2, h4, h5, h6⟩
    · exact ih _ recj hi2 (h4.trans hj) heq
    · rw [h4] at hj
      injection hj with hj
      subst hj
      exact ih _ _ hi2 h6 (by simpa using heq)

/-- C8: evaluate_ideas preserves the number of stored ideas; an idea whose
text matches no evaluation is left with its prior record (in particular its
prior scores); any changed record kept its identity, technique, text,
explanation and creation time and changed only because its text equals some
evaluation text; and among ideas sharing the same text only the first in
insertion order is ever updated. -/
theorem evaluate_ideas_matching (s : SCAMPERSession)
    (evals : List IdeaEvaluation) (now : Nat) :
    ((evaluate_ideas s evals now).ideas.length = s.ideas.length) ∧
    (∀ (i : Nat) (rec : SCAMPERIdea), s.ideas[i]? = some rec →
      rec.idea ∉ evals.map IdeaEvaluation.ideaText →
      (evaluate_ideas s evals now).ideas[i]? = some rec) ∧
    (∀ (i : Nat) (rec rec2 : SCAMPERIdea), s.ideas[i]? = some rec →
      (evaluate_ideas s evals now).ideas[i]? = some rec2 →
      rec2.id = rec.id ∧ rec2.technique = rec.technique ∧
      rec2.idea = rec.idea ∧ rec2.explanation = rec.explanation ∧
      rec2.created_at = rec.created_at ∧
      (rec2 ≠ rec → rec.idea ∈ evals.map IdeaEvaluation.ideaText)) ∧
    (∀ (i j : Nat) (rec recj : SCAMPERIdea), j < i → s.ideas[i]? = some rec →
      s.ideas[j]? = some recj → recj.idea = rec.idea →
      (evaluate_ideas s evals now).ideas[i]? = some rec) := by
  have hid : (evaluate_ideas s evals now).ideas = evalFold s.ideas evals := rfl
  rw [hid]
  refine ⟨evalFold_length evals s.ideas, ?_, ?_, ?_⟩
  · intro i rec h hne
    exact evalFold_untouched evals s.ideas i rec h hne
  · intro i rec rec2 h1 h2
    rcases evalFold_getElem evals s.ideas i with h3 | ⟨rec3, f3, imp3, h3, h4, h5⟩
    · rw [h3, h1] at h2
      injection h2 with h2
      subst h2
      exact ⟨rfl, rfl, rfl, rfl, rfl, fun hne => absurd rfl hne⟩
    · rw [h3] at h1
      injection h1 with h1
      subst h1
      rw [h5] at h2
      injection h2 with h2
      subst h2
      exact ⟨rfl, rfl, rfl, rfl, rfl, fun _ => h4⟩
  · intro i j rec recj hij hi hj heq
    exact evalFold_dup evals i j rec hij s.ideas recj hi hj heq

/-- C8 witness: with two stored ideas of the same text and one evaluation,
the second idea is untouched. -/
theorem evaluate_ideas_matching_witness :
    (evaluate_ideas sessDup [evalX] 3).ideas[1]? = some ideaB :=
  (evaluate_ideas_matching sessDup [evalX] 3).2.2.2 1 0 ideaB ideaA
    (by decide) rfl rfl rfl

/-- C10: the technique name is recognised by lowercasing it and looking it up
in the fixed 14-entry alias map (English and Japanese names for the 7
techniques, demonstrated on every key and on uppercase variants); any name
outside the map produces an error result carrying the 7 valid technique
values and returns the session completely unchanged. -/
theorem apply_technique_aliases (s : SCAMPERSession) (technique : String)
    (ideas : List String) (explanations : Option (List String))
    (ids : List String) (now : Nat) :
    (∀ t : String, get_technique_enum t = List.lookup (pyLower t) technique_map) ∧
    (get_technique_enum "substitute" = some .substitute ∧
     get_technique_enum "Substitute" = some .substitute ∧
     get_technique_enum "SUBSTITUTE" = some .substitute ∧
     get_technique_enum "代替" = some .substitute ∧
     get_technique_enum "combine" = some .combine ∧
     get_technique_enum "COMBINE" = some .combine ∧
     get_technique_enum "結合" = some .combine ∧
     get_technique_enum "adapt" = some .adapt ∧
     get_technique_enum "Adapt" = some .adapt ∧
     get_technique_enum "応用" = some .adapt ∧
     get_technique_enum "modify" = some .modify ∧
     get_technique_enum "MODIFY" = some .modify ∧
     get_technique_enum "変更" = some .modify ∧
     get_technique_enum "put_to_other_use" = some .put_to_other_use ∧
     get_technique_enum "PUT_TO_OTHER_USE" = some .put_to_other_use ∧
     get_technique_enum "転用" = some .put_to_other_use ∧
     get_technique_enum "eliminate" = some .eliminate ∧
     get_technique_enum "Eliminate" = some .eliminate ∧
     get_technique_enum "除去" = some .eliminate ∧
     get_technique_enum "reverse" = some .reverse ∧
     get_technique_enum "REVERSE" = some .reverse ∧
     get_technique_enum "逆転" = some .reverse) ∧
    (get_technique_enum technique = Option.none →
      apply_technique s technique ideas explanations ids now =
        (ApplyOut.invalid ["Substitute", "Combine", "Adapt", "Modify",
          "Put to other use", "Eliminate", "Reverse"], s)) := by
  refine ⟨fun t => rfl, by decide, ?_⟩
  intro h
  unfold apply_technique
  rw [h]
  rfl

/-- C10 witness: an unknown technique name errors, names the 7 valid
techniques, and leaves the concrete session unchanged. -/
theorem apply_technique_aliases_witness :
    apply_technique sess0 "invert" [] Option.none [] 1 =
      (ApplyOut.invalid ["Substitute", "Combine", "Adapt", "Modify",
        "Put to other use", "Eliminate", "Reverse"], sess0) :=
  (apply_technique_aliases sess0 "invert" [] Option.none [] 1).2.2 (by decide)

end Scamper

namespace WhyAnalysis

theorem inv_start (id problem : String) (ctx : Option String) (now : Nat) :
    Inv (start_analysis id problem ctx now) := by
  refine ⟨by simp [start_analysis], ?_, ?_⟩
  · intro i h
    simp [start_analysis] at h
  · intro h
    simp [start_analysis] at h

/-- One add_answer call with a nonnegative level preserves the invariant. -/
theorem inv_step (a : Analysis) (level : Int) (ans : String) (now : Nat)
    (hinv : Inv a) (hlev : 0 ≤ level) : Inv (aaStep a level ans now) := by
  obtain ⟨hlen, hgap, hcomp⟩ := hinv
  by_cases hge : (a.whys.length : Int) ≤ level
  · have hs : aaStep a level ans now = a := by simp [aaStep, add_answer, hge]
    rw [hs]; exact ⟨hlen, hgap, hcomp⟩
  · push_neg at hge
    have hnle : ¬((a.whys.length : Int) ≤ level) := not_le.mpr hge
    have hlt : level.toNat < a.whys.length := by omega
    have hpi : pyIndex a.whys.length level = some level.toNat := by
      unfold pyIndex
      rw [if_pos hlev, if_pos hge]
    have hget : a.whys[level.toNat]? = some (a.whys[level.toNat]) :=
      List.getElem?_eq_getElem hlt
    by_cases hans : (a.whys[level.toNat]).answer.isSome
    · have hs : aaStep a level ans now = a := by
        simp [aaStep, add_answer, hnle, hpi, hget, hans]
      rw [hs]; exact ⟨hlen, hgap, hcomp⟩
    · have hfront : level.toNat = a.whys.length - 1 := by
        by_contra hne
        have h2 : level.toNat + 1 < a.whys.length := by omega
        have h3 := hgap level.toNat h2
        unfold answeredAt at h3
        rw [hget] at h3
        exact hans (by simpa using h3)
      have hstat : a.status ≠ "completed" := by
        intro hsc
        have h3 := hcomp hsc level.toNat hlt
        unfold answeredAt at h3
        rw [hget] at h3
        exact hans (by simpa using h3)
      by_cases h4 : level < (4 : Int)
      · have hstep : aaStep a level ans now =
            { a with
              whys := (a.whys.set level.toNat
                { (a.whys[level.toNat]) with answer := some ans, timestamp := now }) ++
                [ { level := level + 1,
                    question := "なぜ「" ++ ans ++ "」なのか？",
                    answer := Option.none, timestamp := now } ] } := by
          simp [aaStep, add_answer, hnle, hpi, hget, hans, h4]
        rw [hstep]
        refine ⟨?_, ?_, ?_⟩
        · simp only [List.length_append, List.length_set, List.length_singleton]
          omega
        · intro i hi
          simp only [List.length_append, List.length_set, List.length_singleton] at hi
          have hilen : i < a.whys.length := by omega
          unfold answeredAt
          simp only []
          rw [List.getElem?_append_left (by simpa using hilen)]
          by_cases hieq : i = level.toNat
          · subst hieq
            rw [List.getElem?_set_eq_of_lt _ hlt]
            simp
          · rw [List.getElem?_set_ne (fun h => hieq h.symm)]
            have h5 := hgap i (by omega)
            unfold answeredAt at h5
            exact h5
        · intro hsc
          exact absurd hsc hstat
      · have hstep : aaStep a level ans now =
            { a with
              whys := a.whys.set level.toNat
                { (a.whys[level.toNat]) with answer := some ans, timestamp := now },
              status := "completed" } := by
          simp [aaStep, add_answer, hnle, hpi, hget, hans, h4]
        rw [hstep]
        refine ⟨by simpa using hlen, ?_, ?_⟩
        · intro i hi
          simp only [List.length_set] at hi
          unfold answeredAt
          simp only []
          by_cases hieq : i = level.toNat
          · subst hieq
            rw [List.getElem?_set_eq_of_lt _ hlt]
            simp
          · rw [List.getElem?_set_ne (fun h => hieq h.symm)]
            have h5 := hgap i hi
            unfold answeredAt at h5
            exact h5
        · intro _ i hi
          simp only [List.length_set] at hi
          unfold answeredAt
          simp only []
          by_cases hieq : i = level.toNat
          · subst hieq
            rw [List.getElem?_set_eq_of_lt _ hlt]
            simp
          · rw [List.getElem?_set_ne (fun h => hieq h.symm)]
            have h6 : i + 1 < a.whys.length := by omega
            have h5 := hgap i h6
            unfold answeredAt at h5
            exact h5

/-- The invariant holds after any nonnegative-level call sequence. -/
theorem inv_run (calls : List AACall) (hc : ∀ c ∈ calls, 0 ≤ c.level)
    (a : Analysis) (hinv : Inv a) : Inv (runCalls a calls) := by
  induction calls generalizing a with
  | nil => exact hinv
  | cons c rest ih =>
    have h1 : 0 ≤ c.level := hc c (by simp)
    have h2 := inv_step a c.level c.answer c.now hinv h1
    exact ih (fun d hd => hc d (by simp [hd])) _ h2

/-- Once an invariant-satisfying analysis is completed, every add_answer call
with a nonnegative level returns an error and leaves it unchanged. -/
theorem completed_frozen (a : Analysis) (hinv : Inv a)
    (hc : a.status = "completed") (level : Int) (ans : String) (now : Nat)
    (hlev : 0 ≤ level) : add_answer a level ans now = AAOut.ret true a := by
  by_cases hge : (a.whys.length : Int) ≤ level
  · simp [add_answer, hge]
  · push_neg at hge
    have hnle : ¬((a.whys.length : Int) ≤ level) := not_le.mpr hge
    have hlt : level.toNat < a.whys.length := by omega
    have hpi : pyIndex a.whys.length level = some level.toNat := by
      unfold pyIndex
      rw [if_pos hlev, if_pos hge]
    have hget : a.whys[level.toNat]? = some (a.whys[level.toNat]) :=
      List.getElem?_eq_getElem hlt
    have hans := hinv.2.2 hc level.toNat hlt
    unfold answeredAt at hans
    rw [hget] at hans
    simp only [] at hans
    simp [add_answer, hnle, hpi, hget, hans]

/-- A successful call at level 4 sets the status to completed. -/
theorem add_answer_four_completes (a : Analysis) (ans : String) (now : Nat)
    (a2 : Analysis) (h : add_answer a 4 ans now = AAOut.ret false a2) :
    a2.status = "completed" ∧ a2 = aaStep a 4 ans now := by
  have hstep : aaStep a 4 ans now = a2 := by
    unfold aaStep
    rw [h]
  refine ⟨?_, hstep.symm⟩
  unfold add_answer at h
  split at h
  · exact absurd h (by simp)
  · rename_i hge
    cases hpi : pyIndex a.whys.length 4 with
    | none => rw [hpi] at h; exact absurd h (by simp)
    | some idx =>
      rw [hpi] at h
      simp only [] at h
      cases hget : a.whys[idx]? with
      | none => rw [hget] at h; exact absurd h (by simp)
      | some entry =>
        rw [hget] at h
        simp only [] at h
        split at h
        · exact absurd h (by simp)
        · split at h
          · omega
          · injection h with _ h2
            rw [← h2]

/-- C2 counterexample: five add_answer calls at the integer level -1 (all
accepted through Python negative indexing, each answering the frontier and
appending a fresh entry) drive a fresh analysis to six entries with status
still active, so with arbitrary integer levels the sequence does exceed 5
entries. -/
theorem add_answer_claimC2_false :
    whyNeg5.whys.length = 6 ∧ whyNeg5.status = "active" := ⟨rfl, rfl⟩

/-- C2 amended: restricted to nonnegative levels the claim holds: starting
from start_analysis, any add_answer call sequence keeps at most 5 entries;
once the status is completed every further nonnegative-level call returns an
error leaving the analysis unchanged (so nothing is ever appended again);
and a successful call at level 4 is exactly what completes the analysis,
after which it is frozen, so the transition happens exactly once. -/
theorem why_sequence_bounded (id problem : String) (ctx : Option String)
    (t0 : Nat) (calls : List AACall) (hc : ∀ c ∈ calls, 0 ≤ c.level) :
    (runCalls (start_analysis id problem ctx t0) calls).whys.length ≤ 5 ∧
    ((runCalls (start_analysis id problem ctx t0) calls).status = "completed" →
      ∀ (level : Int) (ans : String) (now : Nat), 0 ≤ level →
        add_answer (runCalls (start_analysis id problem ctx t0) calls) level ans now =
          AAOut.ret true (runCalls (start_analysis id problem ctx t0) calls)) ∧
    (∀ (ans : String) (now : Nat) (a2 : Analysis),
      add_answer (runCalls (start_analysis id problem ctx t0) calls) 4 ans now =
        AAOut.ret false a2 →
      a2.status = "completed" ∧
      ∀ (level2 : Int) (ans2 : String) (now2 : Nat), 0 ≤ level2 →
        add_answer a2 level2 ans2 now2 = AAOut.ret true a2) := by
  have hinv := inv_run calls hc _ (inv_start id problem ctx t0)
  refine ⟨hinv.1, ?_, ?_⟩
  · intro hcmp level ans now hlev
    exact completed_frozen _ hinv hcmp level ans now hlev
  · intro ans now a2 h
    obtain ⟨hst, heq⟩ := add_answer_four_completes _ ans now a2 h
    have hinv2 : Inv a2 := by
      rw [heq]
      exact inv_step _ 4 ans now hinv (by norm_num)
    exact ⟨hst, fun level2 ans2 now2 hlev2 =>
      completed_frozen a2 hinv2 hst level2 ans2 now2 hlev2⟩

/-- C2 witness: the empty call sequence keeps the bound. -/
theorem why_sequence_bounded_witness :
    (runCalls (start_analysis "a1" "P" Option.none 0) []).whys.length ≤ 5 :=
  (why_sequence_bounded "a1" "P" Option.none 0 [] (by simp)).1

/-- C5 counterexample: on a fresh analysis the level -1 is outside the valid
range 0..length-1, yet add_answer returns a success result and mutates the
analysis (the single frontier entry is answered through Python negative
indexing and a second entry is appended), instead of returning an error and
leaving the state unchanged. -/
theorem add_answer_claimC5_false :
    ((-1 : Int) < 0) ∧
    add_answer why0 (-1) "r1" 1 = AAOut.ret false whyNeg1 ∧
    why0.whys.length = 1 ∧ whyNeg1.whys.length = 2 := by
  refine ⟨by decide, rfl, rfl, rfl⟩

/-- C5 amended: add_answer returns an error and leaves the analysis unchanged
whenever the level is at least the sequence length, or whenever the entry the
level resolves to (through Python index semantics) is already answered; and
every already-stored answer survives any add_answer call unchanged. -/
theorem add_answer_error_paths (a : Analysis) (level : Int) (ans : String)
    (now : Nat) :
    ((a.whys.length : Int) ≤ level → add_answer a level ans now = AAOut.ret true a) ∧
    (∀ (idx : Nat) (e : WhyEntry), level < (a.whys.length : Int) →
      pyIndex a.whys.length level = some idx → a.whys[idx]? = some e →
      e.answer.isSome = true → add_answer a level ans now = AAOut.ret true a) ∧
    (∀ (err : Bool) (a2 : Analysis), add_answer a level ans now = AAOut.ret err a2 →
      ∀ (i : Nat) (s : String), (a.whys[i]?).map WhyEntry.answer = some (some s) →
        (a2.whys[i]?).map WhyEntry.answer = some (some s)) := by
  refine ⟨?_, ?_, ?_⟩
  · intro h
    simp [add_answer, h]
  · intro idx e hlt hpi hget hans
    simp [add_answer, not_le.mpr hlt, hpi, hget, hans]
  · intro err a2 h i s hmap
    cases hgi : a.whys[i]? with
    | none => rw [hgi] at hmap; exact absurd hmap (by simp)
    | some ei =>
      rw [hgi] at hmap
      have hmap2 : ei.answer = some s := by simpa using hmap
      have hi_lt : i < a.whys.length := by
        by_contra hge2
        rw [List.getElem?_eq_none (by omega)] at hgi
        exact Option.noConfusion hgi
      unfold add_answer at h
      split at h
      · injection h with _ h2
        subst h2
        rw [hgi]
        simp [hmap2]
      · cases hpi : pyIndex a.whys.length level with
        | none => rw [hpi] at h; exact absurd h (by simp)
        | some idx =>
          rw [hpi] at h
          simp only [] at h
          cases hget : a.whys[idx]? with
          | none => rw [hget] at h; exact absurd h (by simp)
          | some entry =>
            rw [hget] at h
            simp only [] at h
            split at h
            · injection h with _ h2
              subst h2
              rw [hgi]
              simp [hmap2]
            · rename_i hansf
              have hne : idx ≠ i := by
                intro he
                subst he
                rw [hgi] at hget
                injection hget with hget
                rw [← hget, hmap2] at hansf
                exact hansf rfl
              split at h
              · injection h with _ h2
                subst h2
                simp only []
                rw [List.getElem?_append_left (by simpa using hi_lt),
                  List.getElem?_set_ne hne, hgi]
                simp [hmap2]
              · injection h with _ h2
                subst h2
                simp only []
                rw [List.getElem?_set_ne hne, hgi]
                simp [hmap2]

/-- C5 witness: a level at or beyond the frontier of the fresh analysis
errors and mutates nothing. -/
theorem add_answer_error_paths_witness :
    add_answer why0 5 "x" 7 = AAOut.ret true why0 :=
  (add_answer_error_paths why0 5 "x" 7).1 (by decide)

end WhyAnalysis

end ThinkingSupport
